import Mathlib

/-!
Shallow embedding of the geofence attendance core of the employee-tracker
repository, together with proofs checking the natural-language specification
against the code.

The embedded pieces are:
* the haversine geo-math of
  `mobile-app/services/locationService.js` (`calculateDistance`) and
  `backend/models/GeofenceRegion.js` (`getDistanceFromCenter`,
  `isPointInside`, `isUserAllowed`);
* the client-side transition detector `checkGeofenceEvents`;
* the client-side failure queue (`storeFailedRequest`,
  `retryFailedRequests`) and immediate submission path (`logAttendance`);
* the server-side handler of `POST /api/attendance/log`
  (`backend/routes/attendance.js`).

JavaScript numbers are modelled as real numbers; JavaScript `Math.atan2`
is modelled by its exact mathematical specification.
-/

/-- Model of JavaScript `Math.atan2 y x`: the angle of the point `(x, y)`,
defined piecewise from `Real.arctan` exactly as the JS specification does
(`atan2 0 0 = 0`). -/
noncomputable def atan2 (y x : ℝ) : ℝ :=
  if 0 < x then Real.arctan (y / x)
  else if x < 0 then
    (if 0 ≤ y then Real.arctan (y / x) + Real.pi else Real.arctan (y / x) - Real.pi)
  else
    (if 0 < y then Real.pi / 2 else if y < 0 then -(Real.pi / 2) else 0)

/-- `LocationService.calculateDistance(lat1, lon1, lat2, lon2)` from
`mobile-app/services/locationService.js`: haversine great-circle distance in
meters with Earth radius `6371e3`. -/
noncomputable def calculateDistance (lat1 lon1 lat2 lon2 : ℝ) : ℝ :=
  let R : ℝ := 6371e3
  let phi1 := lat1 * Real.pi / 180
  let phi2 := lat2 * Real.pi / 180
  let dphi := (lat2 - lat1) * Real.pi / 180
  let dlam := (lon2 - lon1) * Real.pi / 180
  let a := Real.sin (dphi / 2) * Real.sin (dphi / 2) +
      Real.cos phi1 * Real.cos phi2 * (Real.sin (dlam / 2) * Real.sin (dlam / 2))
  let c := 2 * atan2 (Real.sqrt a) (Real.sqrt (1 - a))
  R * c

/-- The haversine argument `a` of `calculateDistance` is symmetric in the two
coordinates: swapping the points negates the half-angle differences, and
`sin` squared is even. -/
theorem calculateDistance_comm (lat1 lon1 lat2 lon2 : ℝ) :
    calculateDistance lat1 lon1 lat2 lon2 = calculateDistance lat2 lon2 lat1 lon1 := by
  show (6371e3 : ℝ) * _ = (6371e3 : ℝ) * _
  have hlat : (lat1 - lat2) * Real.pi / 180 / 2 = -((lat2 - lat1) * Real.pi / 180 / 2) := by
    ring
  have hlon : (lon1 - lon2) * Real.pi / 180 / 2 = -((lon2 - lon1) * Real.pi / 180 / 2) := by
    ring
  rw [hlat, hlon, Real.sin_neg, Real.sin_neg]
  ring_nf

theorem calculateDistance_same : calculateDistance 0 0 0 0 = 0 := by
  have h0 : ((0 : ℝ) - 0) * Real.pi / 180 / 2 = 0 := by ring
  have hphi : (0 : ℝ) * Real.pi / 180 = 0 := by ring
  simp only [calculateDistance, h0, hphi, Real.sin_zero, Real.cos_zero, atan2]
  norm_num [Real.sqrt_zero, Real.sqrt_one, Real.arctan_zero]

/-- Abstract lower bound for the haversine result: if the haversine argument
has the form `s * s * (1 + k)` with `1/12000 < s < 1/10000` and `0 ≤ k ≤ 1`,
the resulting distance exceeds 100 meters. -/
theorem haversine_lb (s k A : ℝ) (hA : A = s * s * (1 + k))
    (hs1 : 1/12000 < s) (hs2 : s < 1/10000) (hk0 : 0 ≤ k) (hk1 : k ≤ 1) :
    100 < 6371e3 * (2 * atan2 (Real.sqrt A) (Real.sqrt (1 - A))) := by
  have hs0 : 0 < s := lt_trans (by norm_num) hs1
  have hA0 : 0 ≤ A := by nlinarith
  have hAub : A ≤ 1/2 := by nlinarith
  have h1A : 0 < 1 - A := by linarith
  have hx : 0 < Real.sqrt (1 - A) := Real.sqrt_pos.2 h1A
  simp only [atan2]
  rw [if_pos hx]
  have hsqA : s ≤ Real.sqrt A := by
    have h := Real.sqrt_le_sqrt (show s ^ 2 ≤ A by nlinarith)
    rwa [Real.sqrt_sq hs0.le] at h
  have hden : Real.sqrt (1 - A) ≤ 1 := Real.sqrt_le_one.2 (by linarith)
  have ht : s ≤ Real.sqrt A / Real.sqrt (1 - A) := by
    rw [le_div_iff hx]
    have h := mul_le_mul_of_nonneg_left hden hs0.le
    rw [mul_one] at h
    linarith
  have hth : (0:ℝ) < 1/127420 := by norm_num
  have hthlt : (1:ℝ)/127420 < Real.pi / 2 := by linarith [Real.pi_gt_three]
  have hcos : (1:ℝ)/2 < Real.cos (1/127420) := by
    have h := Real.one_sub_sq_div_two_le_cos (x := (1/127420 : ℝ))
    nlinarith
  have htan : Real.tan (1/127420) < 1/12000 := by
    rw [Real.tan_eq_sin_div_cos]
    rw [div_lt_iff (by linarith : (0:ℝ) < Real.cos (1/127420))]
    have hsin := Real.sin_lt hth
    linarith
  have harct : 1/127420 < Real.arctan (Real.sqrt A / Real.sqrt (1 - A)) := by
    have h1 : Real.arctan (Real.tan (1/127420)) = 1/127420 :=
      Real.arctan_tan (by linarith [Real.pi_gt_three]) hthlt
    have h2 : Real.tan (1/127420) < Real.sqrt A / Real.sqrt (1 - A) := by
      calc Real.tan (1/127420) < 1/12000 := htan
        _ < s := hs1
        _ ≤ _ := ht
    calc (1:ℝ)/127420 = Real.arctan (Real.tan (1/127420)) := h1.symm
      _ < _ := Real.arctan_strictMono h2
  linarith

/-- The point `(0.01, 0.01)` is more than 100 meters away from `(0, 0)` under
the embedded haversine distance (it is about 1.5 km away). -/
theorem hundred_lt_dist : 100 < calculateDistance 0.01 0.01 0 0 := by
  have hneg : ((0:ℝ) - 0.01) * Real.pi / 180 / 2 = -(0.01 * Real.pi / 180 / 2) := by ring
  have hzero : ((0:ℝ)) * Real.pi / 180 = 0 := by ring
  simp only [calculateDistance, hneg, hzero, Real.sin_neg, Real.cos_zero]
  refine haversine_lb (Real.sin (0.01 * Real.pi / 180 / 2))
    (Real.cos (0.01 * Real.pi / 180)) _ (by ring) ?_ ?_ ?_ ?_
  · have hpos0 : (0:ℝ) < 0.01 * Real.pi / 180 / 2 := by nlinarith [Real.pi_gt_d6]
    have h8 : (0.000087266 : ℝ) < 0.01 * Real.pi / 180 / 2 := by
      nlinarith [Real.pi_gt_d6]
    have h9 : 0.01 * Real.pi / 180 / 2 ≤ 1 := by nlinarith [Real.pi_lt_d2]
    have hcube := Real.sin_gt_sub_cube (by linarith) h9
    have hub : 0.01 * Real.pi / 180 / 2 < 0.0001 := by nlinarith [Real.pi_lt_d2]
    have hx3 : (0.01 * Real.pi / 180 / 2) ^ 3 < (0.0001 : ℝ) ^ 3 :=
      pow_lt_pow_left hub hpos0.le (by norm_num)
    have h312 : ((0.0001 : ℝ)) ^ 3 = 1e-12 := by norm_num
    linarith [hcube, h8, hx3]
  · have hpos : (0:ℝ) < 0.01 * Real.pi / 180 / 2 := by nlinarith [Real.pi_gt_d6]
    have hub : 0.01 * Real.pi / 180 / 2 < 0.0001 := by nlinarith [Real.pi_lt_d2]
    have := Real.sin_lt hpos
    linarith
  · refine (Real.cos_pos_of_mem_Ioo ⟨?_, ?_⟩).le
    · nlinarith [Real.pi_gt_three]
    · nlinarith [Real.pi_lt_d2, Real.pi_gt_three]
  · exact Real.cos_le_one _

/-! ## Client-side transition detector (`locationService.js`) -/

/-- A geofence region as seen by the mobile client
(`this.geofenceRegions` entries: `regionId`, `center`, `radius`). -/
structure ClientRegion where
  regionId : String
  centerLat : ℝ
  centerLon : ℝ
  radius : ℝ

/-- The `eventType` argument of `handleGeofenceEvent` in
`locationService.js`. -/
inductive EventKind where
  | enter
  | exit
deriving DecidableEq, Repr

/-- Model of JavaScript `Set.prototype.add` on an insertion-ordered list. -/
def addSet (l : List String) (s : String) : List String :=
  if s ∈ l then l else l ++ [s]

/-- The `isInside` local of `checkGeofenceEvents`:
`distance <= region.radius` for the client's haversine distance from the
sample to the region center. -/
noncomputable def insideR (lat lon : ℝ) (r : ClientRegion) : Prop :=
  calculateDistance lat lon r.centerLat r.centerLon ≤ r.radius

open Classical in
/-- One iteration of the first loop of `checkGeofenceEvents`: compute the
distance to the region, and if the sample is inside, add the region id to
`currentRegions` and emit an `enter` event when the id was not in
`lastKnownRegions`. -/
noncomputable def processRegion (lastKnown : List String) (lat lon : ℝ)
    (acc : List (EventKind × String) × List String) (r : ClientRegion) :
    List (EventKind × String) × List String :=
  if insideR lat lon r then
    (if r.regionId ∈ lastKnown then acc.1
     else acc.1 ++ [(EventKind.enter, r.regionId)],
     addSet acc.2 r.regionId)
  else acc

/-- `LocationService.checkGeofenceEvents` from `locationService.js`: the first
loop walks `this.geofenceRegions` emitting `enter` events and building
`currentRegions`; the second loop walks `lastKnownRegions` and emits an `exit`
event for an id no longer inside only when `geofenceRegions.find` still knows
a region with that id; the new `lastKnownRegions` is `currentRegions`.
Returns (emitted events in order, new `lastKnownRegions`). -/
noncomputable def checkGeofenceEvents (regions : List ClientRegion)
    (lastKnown : List String) (lat lon : ℝ) :
    List (EventKind × String) × List String :=
  let p := regions.foldl (processRegion lastKnown lat lon) ([], [])
  let exits := lastKnown.filterMap (fun rid =>
    if rid ∈ p.2 then none
    else
      match regions.find? (fun r => r.regionId == rid) with
      | some _ => some (EventKind.exit, rid)
      | none => none)
  (p.1 ++ exits, p.2)

/-- Repeated application of `checkGeofenceEvents` to a stream of location
samples (`handleLocationUpdate` calling `checkGeofenceEvents` on each
update), with the registry snapshot held fixed. Returns all emitted events
in order together with the final `lastKnownRegions`. -/
noncomputable def runDetector (regions : List ClientRegion) :
    List String → List (ℝ × ℝ) → List (EventKind × String) × List String
  | lastKnown, [] => ([], lastKnown)
  | lastKnown, s :: rest =>
    let res := checkGeofenceEvents regions lastKnown s.1 s.2
    let next := runDetector regions res.2 rest
    (res.1 ++ next.1, next.2)

/-- The kinds of the events a given zone id receives, in emission order. -/
def kindsOf (rid : String) (evs : List (EventKind × String)) : List EventKind :=
  evs.filterMap (fun e => if e.2 = rid then some e.1 else none)

/-! ## Server-side model (`GeofenceRegion.js`) -/

/-- A geofence region document (`backend/models/GeofenceRegion.js`). -/
structure GeofenceRegion where
  regionId : String
  centerLat : ℝ
  centerLon : ℝ
  radius : ℝ
  isActive : Bool
  allowedUsers : List String

/-- `geofenceRegionSchema.methods.getDistanceFromCenter`: haversine distance
from the region center to a point, Earth radius `6371e3`. -/
noncomputable def GeofenceRegion.getDistanceFromCenter (r : GeofenceRegion)
    (latitude longitude : ℝ) : ℝ :=
  let R : ℝ := 6371e3
  let phi1 := r.centerLat * Real.pi / 180
  let phi2 := latitude * Real.pi / 180
  let dphi := (latitude - r.centerLat) * Real.pi / 180
  let dlam := (longitude - r.centerLon) * Real.pi / 180
  let a := Real.sin (dphi / 2) * Real.sin (dphi / 2) +
      Real.cos phi1 * Real.cos phi2 * (Real.sin (dlam / 2) * Real.sin (dlam / 2))
  let c := 2 * atan2 (Real.sqrt a) (Real.sqrt (1 - a))
  R * c

/-- `geofenceRegionSchema.methods.isPointInside`: the same haversine
computation followed by `distance <= this.radius`. -/
noncomputable def GeofenceRegion.isPointInside (r : GeofenceRegion)
    (latitude longitude : ℝ) : Prop :=
  r.getDistanceFromCenter latitude longitude ≤ r.radius

/-- `geofenceRegionSchema.methods.isUserAllowed`:
`this.allowedUsers.length === 0 || this.allowedUsers.includes(userId)`. -/
def GeofenceRegion.isUserAllowed (r : GeofenceRegion) (userId : String) : Bool :=
  r.allowedUsers.isEmpty || r.allowedUsers.contains userId

/-- The server-side haversine body is literally the client-side formula
applied with the region center as the first point. -/
theorem getDistanceFromCenter_eq_calc (r : GeofenceRegion) (lat lon : ℝ) :
    r.getDistanceFromCenter lat lon = calculateDistance r.centerLat r.centerLon lat lon :=
  rfl

/-! ## Server-side handler of `POST /api/attendance/log`
(`backend/routes/attendance.js`) -/

/-- The `type` field of an attendance event. -/
inductive EventType where
  | login
  | logout
  | geofence_enter
  | geofence_exit
deriving DecidableEq, Repr

/-- The request body of `POST /api/attendance/log` together with the
authenticated user id (`req.user._id`). `regionId = none` models an absent
or `null` field. -/
structure LogRequest where
  type : EventType
  latitude : ℝ
  longitude : ℝ
  regionId : Option String
  userId : String

/-- A persisted `AttendanceLog` document (the fields the handler derives from
the request; bookkeeping fields such as timestamps are not observed by any
claim). -/
structure AttendanceLog where
  userId : String
  type : EventType
  latitude : ℝ
  longitude : ℝ
  regionId : Option String

/-- JavaScript truthiness of the optional `regionId` string
(`undefined`, `null` and `""` are falsy). -/
def truthy : Option String → Bool
  | none => false
  | some s => !(s == "")

/-- The `attendanceLog` document built by the handler before the geofence
checks; its `regionId` is `regionId || null`. -/
def attendanceLogOf (req : LogRequest) : AttendanceLog :=
  { userId := req.userId
    type := req.type
    latitude := req.latitude
    longitude := req.longitude
    regionId := if truthy req.regionId then req.regionId else none }

/-- The response of the handler: an error status/message, or `201 Created`
with the persisted log. -/
inductive LogResponse where
  | error (status : Nat) (message : String)
  | created (log : AttendanceLog)

/-- `GeofenceRegion.findOne({ regionId, isActive: true })`. -/
def findRegion (regions : List GeofenceRegion) (rid : String) :
    Option GeofenceRegion :=
  regions.find? (fun r => r.regionId == rid && r.isActive)

open Classical in
/-- The handler of `POST /api/attendance/log` (lines 43-128 of
`backend/routes/attendance.js`), as a function of the region collection, the
persisted log collection and the request. The express-validator stage is the
coordinate-bounds check; the geofence policy checks run only when the type is
a geofence type and `regionId` is truthy; `await attendanceLog.save()`
appends to the collection. Returns the response and the new collection. -/
noncomputable def handleLog (regions : List GeofenceRegion)
    (store : List AttendanceLog) (req : LogRequest) :
    LogResponse × List AttendanceLog :=
  if -90 ≤ req.latitude ∧ req.latitude ≤ 90 ∧
      -180 ≤ req.longitude ∧ req.longitude ≤ 180 then
    let log := attendanceLogOf req
    if (req.type = EventType.geofence_enter ∨ req.type = EventType.geofence_exit) ∧
        truthy req.regionId then
      match findRegion regions (req.regionId.getD "") with
      | none => (LogResponse.error 400 "Invalid or inactive geofence region", store)
      | some region =>
        if ¬ region.isUserAllowed req.userId then
          (LogResponse.error 403 "User not allowed in this geofence region", store)
        else if req.type = EventType.geofence_enter ∧
            ¬ region.isPointInside req.latitude req.longitude then
          (LogResponse.error 400 "Location is not within the geofence region", store)
        else
          (LogResponse.created log, store ++ [log])
    else
      (LogResponse.created log, store ++ [log])
  else
    (LogResponse.error 400 "Validation error", store)

/-! ## Client-side submission and retry queue (`locationService.js`) -/

/-- The payload of a client `logAttendance` call. -/
structure AttendanceData where
  type : EventType
  latitude : ℝ
  longitude : ℝ
  regionId : Option String

/-- An entry of `settings.failedAttendanceRequests`: the original payload
spread together with a `failedAt` timestamp (`storeFailedRequest`). -/
structure StoredRequest where
  data : AttendanceData
  failedAt : Nat

/-- The slice of the durable settings blob used by the retry queue. -/
structure Settings where
  failedAttendanceRequests : List StoredRequest

/-- Client-plus-collaborator state: the durable settings, the trace of
`attendanceAPI.logAttendance` calls (every delivery attempt, in order), and
the events the server has acknowledged, in arrival order. -/
structure ClientState where
  settings : Settings
  attempts : List AttendanceData
  serverLog : List AttendanceData

/-- One `attendanceAPI.logAttendance` network call: it is always recorded in
the attempt trace, and lands in the server log exactly when the collaborator
accepts it (`ok`). -/
def apiCall (ok : AttendanceData → Bool) (st : ClientState)
    (data : AttendanceData) : ClientState :=
  { st with
    attempts := st.attempts ++ [data]
    serverLog := if ok data then st.serverLog ++ [data] else st.serverLog }

/-- `LocationService.storeFailedRequest`: push the payload with a `failedAt`
timestamp onto `settings.failedAttendanceRequests`. -/
def storeFailedRequest (settings : Settings) (data : AttendanceData)
    (now : Nat) : Settings :=
  { settings with
    failedAttendanceRequests :=
      settings.failedAttendanceRequests ++ [{ data := data, failedAt := now }] }

/-- `LocationService.logAttendance`: submit immediately; on a failed call
store the payload for later retry. `ok` models the outcome of the network
call at this instant. -/
def logAttendance (ok : AttendanceData → Bool) (st : ClientState)
    (data : AttendanceData) (now : Nat) : ClientState :=
  let st' := apiCall ok st data
  if ok data then st'
  else { st' with settings := storeFailedRequest st'.settings data now }

/-- `LocationService.retryFailedRequests`: re-submit every stored request in
order; requests whose re-submission succeeded are removed from the stored
queue, the rest remain. (`successfulRequests.includes` compares object
identity in the source; since the outcome `ok` is a function of the payload,
filtering by outcome is equivalent.) -/
def retryFailedRequests (ok : AttendanceData → Bool) (st : ClientState) :
    ClientState :=
  let failedRequests := st.settings.failedAttendanceRequests
  if failedRequests.isEmpty then st
  else
    let st' := failedRequests.foldl (fun acc r => apiCall ok acc r.data) st
    { st' with
      settings :=
        { failedAttendanceRequests :=
            failedRequests.filter (fun r => !(ok r.data)) } }

/-! ## Detector helper lemmas -/

theorem addSet_mem (l : List String) (s x : String) :
    x ∈ addSet l s ↔ x ∈ l ∨ x = s := by
  unfold addSet
  by_cases h : s ∈ l
  · simp only [if_pos h]
    constructor
    · exact Or.inl
    · rintro (hx | rfl)
      · exact hx
      · exact h
  · simp [if_neg h]

theorem addSet_nodup (l : List String) (s : String) (hl : l.Nodup) :
    (addSet l s).Nodup := by
  unfold addSet
  by_cases h : s ∈ l
  · simpa [if_pos h] using hl
  · rw [if_neg h]
    simp [List.nodup_append, hl, h]

open Classical in
/-- The `enter` events produced by the first loop of `checkGeofenceEvents`,
in region order: one per region the sample is inside whose id is not in
`lastKnownRegions`. -/
noncomputable def entersFn (lk : List String) (lat lon : ℝ) (r : ClientRegion) :
    Option (EventKind × String) :=
  if insideR lat lon r ∧ r.regionId ∉ lk then some (EventKind.enter, r.regionId)
  else none

theorem foldl_processRegion_events (lk : List String) (lat lon : ℝ) :
    ∀ (regions : List ClientRegion) (acc : List (EventKind × String) × List String),
    (regions.foldl (processRegion lk lat lon) acc).1 =
      acc.1 ++ regions.filterMap (entersFn lk lat lon) := by
  intro regions
  induction regions with
  | nil => intro acc; simp
  | cons r rs ih =>
    intro acc
    rw [List.foldl_cons, ih, List.filterMap_cons]
    by_cases hin : insideR lat lon r
    · by_cases hmem : r.regionId ∈ lk
      · simp [processRegion, entersFn, hin, hmem]
      · simp [processRegion, entersFn, hin, hmem]
    · simp [processRegion, entersFn, hin]

theorem foldl_processRegion_current (lk : List String) (lat lon : ℝ) (x : String) :
    ∀ (regions : List ClientRegion) (acc : List (EventKind × String) × List String),
    (x ∈ (regions.foldl (processRegion lk lat lon) acc).2 ↔
      x ∈ acc.2 ∨ ∃ r ∈ regions, r.regionId = x ∧ insideR lat lon r) := by
  intro regions
  induction regions with
  | nil => intro acc; simp
  | cons r rs ih =>
    intro acc
    rw [List.foldl_cons, ih]
    by_cases hin : insideR lat lon r
    · have h2 : (processRegion lk lat lon acc r).2 = addSet acc.2 r.regionId := by
        by_cases hmem : r.regionId ∈ lk <;> simp [processRegion, hin, hmem]
      rw [h2, addSet_mem]
      constructor
      · rintro ((hx | rfl) | ⟨r', hr', hid, hins⟩)
        · exact Or.inl hx
        · exact Or.inr ⟨r, by simp, rfl, hin⟩
        · exact Or.inr ⟨r', by simp [hr'], hid, hins⟩
      · rintro (hx | ⟨r', hr', hid, hins⟩)
        · exact Or.inl (Or.inl hx)
        · rcases List.mem_cons.1 hr' with rfl | hr'
          · exact Or.inl (Or.inr hid.symm)
          · exact Or.inr ⟨r', hr', hid, hins⟩
    · have h2 : (processRegion lk lat lon acc r).2 = acc.2 := by
        simp [processRegion, hin]
      rw [h2]
      constructor
      · rintro (hx | ⟨r', hr', hid, hins⟩)
        · exact Or.inl hx
        · exact Or.inr ⟨r', by simp [hr'], hid, hins⟩
      · rintro (hx | ⟨r', hr', hid, hins⟩)
        · exact Or.inl hx
        · rcases List.mem_cons.1 hr' with rfl | hr'
          · exact absurd hins hin
          · exact Or.inr ⟨r', hr', hid, hins⟩

theorem foldl_processRegion_nodup (lk : List String) (lat lon : ℝ) :
    ∀ (regions : List ClientRegion) (acc : List (EventKind × String) × List String),
    acc.2.Nodup → (regions.foldl (processRegion lk lat lon) acc).2.Nodup := by
  intro regions
  induction regions with
  | nil => intro acc h; simpa using h
  | cons r rs ih =>
    intro acc h
    rw [List.foldl_cons]
    refine ih _ ?_
    by_cases hin : insideR lat lon r
    · have h2 : (processRegion lk lat lon acc r).2 = addSet acc.2 r.regionId := by
        by_cases hmem : r.regionId ∈ lk <;> simp [processRegion, hin, hmem]
      rw [h2]; exact addSet_nodup _ _ h
    · simpa [processRegion, hin] using h

theorem kindsOf_append (rid : String) (a b : List (EventKind × String)) :
    kindsOf rid (a ++ b) = kindsOf rid a ++ kindsOf rid b := by
  simp [kindsOf]

theorem kindsOf_nil (rid : String) : kindsOf rid [] = [] := rfl

theorem kindsOf_cons (rid : String) (k : EventKind) (s : String)
    (evs : List (EventKind × String)) :
    kindsOf rid ((k, s) :: evs) =
      (if s = rid then [k] else []) ++ kindsOf rid evs := by
  by_cases h : s = rid <;> simp [kindsOf, List.filterMap_cons, h]

theorem kindsOf_enters_none (rid : String) (lk : List String) (lat lon : ℝ) :
    ∀ regions : List ClientRegion, (∀ r ∈ regions, r.regionId ≠ rid) →
    kindsOf rid (regions.filterMap (entersFn lk lat lon)) = [] := by
  intro regions
  induction regions with
  | nil => intro _; rfl
  | cons r rs ih =>
    intro habs
    have hr : r.regionId ≠ rid := habs r (List.mem_cons_self r rs)
    have hrest : ∀ r' ∈ rs, r'.regionId ≠ rid := fun r' h =>
      habs r' (List.mem_cons_of_mem _ h)
    rw [List.filterMap_cons]
    by_cases hc : insideR lat lon r ∧ r.regionId ∉ lk
    · rw [show entersFn lk lat lon r = some (EventKind.enter, r.regionId) from
        by simp [entersFn, hc]]
      rw [kindsOf_cons, if_neg hr, List.nil_append]
      exact ih hrest
    · rw [show entersFn lk lat lon r = none from by simp [entersFn]; intro h1; by_contra h2; exact hc ⟨h1, h2⟩]
      exact ih hrest

open Classical in
theorem kindsOf_enters_some (rid : String) (lk : List String) (lat lon : ℝ) :
    ∀ regions : List ClientRegion,
    (regions.map (fun r => r.regionId)).Nodup →
    ∀ r ∈ regions, r.regionId = rid →
    kindsOf rid (regions.filterMap (entersFn lk lat lon)) =
      (if insideR lat lon r ∧ rid ∉ lk then [EventKind.enter] else []) := by
  intro regions
  induction regions with
  | nil => intro _ r hr; exact absurd hr (List.not_mem_nil r)
  | cons r' rs ih =>
    intro hnd r hr hid
    have hnd' : (rs.map (fun r => r.regionId)).Nodup := (List.nodup_cons.1 hnd).2
    have hnotin : r'.regionId ∉ rs.map (fun r => r.regionId) := (List.nodup_cons.1 hnd).1
    rw [List.filterMap_cons]
    rcases List.mem_cons.1 hr with rfl | hmem
    · -- the head is the region with this id
      have htail : ∀ r'' ∈ rs, r''.regionId ≠ rid := by
        intro r'' h hceq
        exact hnotin (hid ▸ hceq ▸ List.mem_map_of_mem (fun r => r.regionId) h)
      by_cases hc : insideR lat lon r ∧ r.regionId ∉ lk
      · rw [show entersFn lk lat lon r = some (EventKind.enter, r.regionId) from
          by simp [entersFn, hc]]
        rw [kindsOf_cons, if_pos hid, kindsOf_enters_none rid lk lat lon rs htail]
        rw [if_pos (hid ▸ hc), List.append_nil]
      · rw [show entersFn lk lat lon r = none from
          by simp [entersFn]; intro h1; by_contra h2; exact hc ⟨h1, h2⟩]
        rw [kindsOf_enters_none rid lk lat lon rs htail]
        rw [if_neg (by rw [← hid]; exact hc)]
    · -- the region with this id is in the tail; the head has a different id
      have hneq : r'.regionId ≠ rid := by
        intro hceq
        exact hnotin (hceq ▸ hid ▸ List.mem_map_of_mem (fun r => r.regionId) hmem)
      by_cases hc : insideR lat lon r' ∧ r'.regionId ∉ lk
      · rw [show entersFn lk lat lon r' = some (EventKind.enter, r'.regionId) from
          by simp [entersFn, hc]]
        rw [kindsOf_cons, if_neg hneq, List.nil_append]
        exact ih hnd' r hmem hid
      · rw [show entersFn lk lat lon r' = none from
          by simp [entersFn]; intro h1; by_contra h2; exact hc ⟨h1, h2⟩]
        exact ih hnd' r hmem hid

theorem kindsOf_exits_shape (rid : String) (g : String → Option (EventKind × String))
    (hg : ∀ x, g x = none ∨ g x = some (EventKind.exit, x)) :
    ∀ lk : List String,
    (rid ∉ lk ∨ g rid = none → kindsOf rid (lk.filterMap g) = []) ∧
    (lk.Nodup → rid ∈ lk → g rid = some (EventKind.exit, rid) →
      kindsOf rid (lk.filterMap g) = [EventKind.exit]) := by
  intro lk
  induction lk with
  | nil =>
    refine ⟨fun _ => rfl, fun _ h => absurd h (List.not_mem_nil rid)⟩
  | cons y ys ih =>
    constructor
    · intro h
      rw [List.filterMap_cons]
      have hy : y ≠ rid ∨ g rid = none := by
        rcases h with h | h
        · exact Or.inl (fun he => h (he ▸ List.mem_cons_self y ys))
        · exact Or.inr h
      have htail : rid ∉ ys ∨ g rid = none := by
        rcases h with h | h
        · exact Or.inl (fun hm => h (List.mem_cons_of_mem _ hm))
        · exact Or.inr h
      rcases hgy : g y with _ | e
      · exact ih.1 htail
      · rcases hg y with hn | hs
        · rw [hgy] at hn; cases hn
        · rw [hgy] at hs
          obtain rfl : e = (EventKind.exit, y) := by injection hs
          rw [kindsOf_cons]
          have hyne : y ≠ rid := by
            rcases hy with hy | hy
            · exact hy
            · intro he; subst he; rw [hy] at hgy; exact Option.noConfusion hgy
          rw [if_neg hyne, List.nil_append]
          exact ih.1 htail
    · intro hnd hmem hsome
      rw [List.filterMap_cons]
      rcases List.mem_cons.1 hmem with rfl | hmem'
      · rw [hsome, kindsOf_cons, if_pos rfl]
        have : rid ∉ ys := (List.nodup_cons.1 hnd).1
        rw [ih.1 (Or.inl this), List.append_nil]
      · have hyne : y ≠ rid := by
          intro he; subst he
          exact (List.nodup_cons.1 hnd).1 hmem'
        rcases hgy : g y with _ | e
        · exact ih.2 (List.nodup_cons.1 hnd).2 hmem' hsome
        · rcases hg y with hn | hs
          · rw [hgy] at hn; cases hn
          · rw [hgy] at hs
            obtain rfl : e = (EventKind.exit, y) := by injection hs
            rw [kindsOf_cons, if_neg hyne, List.nil_append]
            exact ih.2 (List.nodup_cons.1 hnd).2 hmem' hsome

/-- The body of the second loop of `checkGeofenceEvents` for one id of
`lastKnownRegions`. -/
def exitsFn (regions : List ClientRegion) (current : List String)
    (rid : String) : Option (EventKind × String) :=
  if rid ∈ current then none
  else
    match regions.find? (fun r => r.regionId == rid) with
    | some _ => some (EventKind.exit, rid)
    | none => none

theorem check_eq (regions : List ClientRegion) (lk : List String) (lat lon : ℝ) :
    checkGeofenceEvents regions lk lat lon =
      ((regions.foldl (processRegion lk lat lon) ([], [])).1 ++
        lk.filterMap
          (exitsFn regions (regions.foldl (processRegion lk lat lon) ([], [])).2),
       (regions.foldl (processRegion lk lat lon) ([], [])).2) := rfl

theorem exitsFn_shape (regions : List ClientRegion) (current : List String)
    (x : String) :
    exitsFn regions current x = none ∨
      exitsFn regions current x = some (EventKind.exit, x) := by
  unfold exitsFn
  by_cases hx : x ∈ current
  · exact Or.inl (if_pos hx)
  · rw [if_neg hx]
    rcases h : regions.find? (fun r => r.regionId == x) with _ | r
    · exact Or.inl (by simp [h])
    · exact Or.inr (by simp [h])

/-- A zone id carried in the detector state but absent from the current
registry snapshot produces no event at all on the next `checkGeofenceEvents`
call, and is silently dropped from the new state. -/
theorem check_absent (regions : List ClientRegion) (lk : List String)
    (lat lon : ℝ) (rid : String)
    (habs : ∀ r ∈ regions, r.regionId ≠ rid) :
    kindsOf rid (checkGeofenceEvents regions lk lat lon).1 = [] ∧
    rid ∉ (checkGeofenceEvents regions lk lat lon).2 := by
  have hfst : (checkGeofenceEvents regions lk lat lon).1 =
      (regions.foldl (processRegion lk lat lon) ([], [])).1 ++
        lk.filterMap
          (exitsFn regions (regions.foldl (processRegion lk lat lon) ([], [])).2) := rfl
  have hsnd : (checkGeofenceEvents regions lk lat lon).2 =
      (regions.foldl (processRegion lk lat lon) ([], [])).2 := rfl
  have hfind : regions.find? (fun r => r.regionId == rid) = none :=
    List.find?_eq_none.2 (fun r hr => by simpa using habs r hr)
  have hgnone : exitsFn regions
      (regions.foldl (processRegion lk lat lon) ([], [])).2 rid = none := by
    unfold exitsFn
    by_cases hx : rid ∈ (regions.foldl (processRegion lk lat lon) ([], [])).2
    · exact if_pos hx
    · rw [if_neg hx, hfind]
  constructor
  · have h1 : kindsOf rid (regions.foldl (processRegion lk lat lon) ([], [])).1 = [] := by
      rw [foldl_processRegion_events]
      simpa using kindsOf_enters_none rid lk lat lon regions habs
    have h2 : kindsOf rid (lk.filterMap
        (exitsFn regions (regions.foldl (processRegion lk lat lon) ([], [])).2)) = [] :=
      (kindsOf_exits_shape rid _ (exitsFn_shape regions _) lk).1 (Or.inr hgnone)
    rw [hfst, kindsOf_append, h1, h2]
    rfl
  · rw [hsnd]
    intro hmem
    rcases (foldl_processRegion_current lk lat lon rid regions ([], [])).1 hmem with
      h | ⟨r', hr', hid', _⟩
    · simp at h
    · exact habs r' hr' hid'

open Classical in
/-- One `checkGeofenceEvents` call, seen from a zone id that is present in the
registry snapshot (with pairwise-distinct region ids): the new state records
exactly whether the sample is inside that zone, and the events for the zone
are exactly the state machine's transition output. -/
theorem check_present (regions : List ClientRegion) (lk : List String)
    (lat lon : ℝ) (rid : String) (r : ClientRegion)
    (hnd : (regions.map (fun r => r.regionId)).Nodup) (hlk : lk.Nodup)
    (hr : r ∈ regions) (hid : r.regionId = rid) :
    (rid ∈ (checkGeofenceEvents regions lk lat lon).2 ↔ insideR lat lon r) ∧
    kindsOf rid (checkGeofenceEvents regions lk lat lon).1 =
      (if rid ∈ lk then (if insideR lat lon r then [] else [EventKind.exit])
       else (if insideR lat lon r then [EventKind.enter] else [])) := by
  have hfst : (checkGeofenceEvents regions lk lat lon).1 =
      (regions.foldl (processRegion lk lat lon) ([], [])).1 ++
        lk.filterMap
          (exitsFn regions (regions.foldl (processRegion lk lat lon) ([], [])).2) := rfl
  have hsnd : (checkGeofenceEvents regions lk lat lon).2 =
      (regions.foldl (processRegion lk lat lon) ([], [])).2 := rfl
  have hmem_iff : rid ∈ (regions.foldl (processRegion lk lat lon) ([], [])).2 ↔
      insideR lat lon r := by
    rw [foldl_processRegion_current]
    constructor
    · rintro (h | ⟨r', hr', hid', hin⟩)
      · simp at h
      · have : r' = r :=
          List.inj_on_of_nodup_map hnd hr' hr (hid'.trans hid.symm)
        exact this ▸ hin
    · intro hin
      exact Or.inr ⟨r, hr, hid, hin⟩
  have hfindsome : (regions.find? (fun r => r.regionId == rid)).isSome :=
    List.find?_isSome.2 ⟨r, hr, by simp [hid]⟩
  obtain ⟨r', hfind⟩ := Option.isSome_iff_exists.1 hfindsome
  have henters : kindsOf rid (regions.foldl (processRegion lk lat lon) ([], [])).1 =
      (if insideR lat lon r ∧ rid ∉ lk then [EventKind.enter] else []) := by
    rw [foldl_processRegion_events]
    simpa using kindsOf_enters_some rid lk lat lon regions hnd r hr hid
  refine ⟨by rw [hsnd]; exact hmem_iff, ?_⟩
  rw [hfst, kindsOf_append, henters]
  by_cases hmem : rid ∈ lk
  · by_cases hin : insideR lat lon r
    · have hgnone : exitsFn regions
          (regions.foldl (processRegion lk lat lon) ([], [])).2 rid = none := by
        unfold exitsFn
        exact if_pos (hmem_iff.2 hin)
      rw [(kindsOf_exits_shape rid _ (exitsFn_shape regions _) lk).1 (Or.inr hgnone)]
      simp [hmem, hin]
    · have hgsome : exitsFn regions
          (regions.foldl (processRegion lk lat lon) ([], [])).2 rid =
            some (EventKind.exit, rid) := by
        unfold exitsFn
        rw [if_neg (fun h => hin (hmem_iff.1 h)), hfind]
      rw [(kindsOf_exits_shape rid _ (exitsFn_shape regions _) lk).2 hlk hmem hgsome]
      simp [hmem, hin]
  · rw [(kindsOf_exits_shape rid _ (exitsFn_shape regions _) lk).1 (Or.inl hmem)]
    by_cases hin : insideR lat lon r <;> simp [hmem, hin]

/-- `AltFrom s ks t`: starting from containment state `s` (`true` = INSIDE),
the event-kind list `ks` is a strictly alternating transition sequence ending
in state `t`. -/
inductive AltFrom : Bool → List EventKind → Bool → Prop where
  | nil (s : Bool) : AltFrom s [] s
  | enter {ks : List EventKind} {t : Bool} (h : AltFrom true ks t) :
      AltFrom false (EventKind.enter :: ks) t
  | exit {ks : List EventKind} {t : Bool} (h : AltFrom false ks t) :
      AltFrom true (EventKind.exit :: ks) t

theorem AltFrom.append {s m t : Bool} {ks ls : List EventKind}
    (h1 : AltFrom s ks m) (h2 : AltFrom m ls t) : AltFrom s (ks ++ ls) t := by
  induction h1 with
  | nil => simpa using h2
  | enter h ih => exact AltFrom.enter (ih h2)
  | exit h ih => exact AltFrom.exit (ih h2)

theorem AltFrom.head_eq {s t : Bool} {k : EventKind} {ks : List EventKind}
    (h : AltFrom s (k :: ks) t) :
    k = (if s then EventKind.exit else EventKind.enter) := by
  cases h with
  | enter _ => rfl
  | exit _ => rfl

theorem AltFrom.chain {s t : Bool} {ks : List EventKind}
    (h : AltFrom s ks t) : List.Chain' (fun a b => a ≠ b) ks := by
  induction h with
  | nil => exact List.chain'_nil
  | @enter ks t h ih =>
    cases ks with
    | nil => simp
    | cons k' ks' =>
      rw [List.chain'_cons]
      refine ⟨?_, ih⟩
      rw [AltFrom.head_eq h]
      simp
  | @exit ks t h ih =>
    cases ks with
    | nil => simp
    | cons k' ks' =>
      rw [List.chain'_cons]
      refine ⟨?_, ih⟩
      rw [AltFrom.head_eq h]
      simp

theorem AltFrom.count {s t : Bool} {ks : List EventKind} (h : AltFrom s ks t) :
    (ks.count EventKind.enter : ℤ) - (ks.count EventKind.exit : ℤ) =
      (if t then (1 : ℤ) else 0) - (if s then (1 : ℤ) else 0) := by
  induction h with
  | nil => simp
  | @enter ks t h ih =>
    have h1 : (EventKind.enter :: ks).count EventKind.enter =
        ks.count EventKind.enter + 1 := by simp [List.count_cons]
    have h2 : (EventKind.enter :: ks).count EventKind.exit =
        ks.count EventKind.exit := by simp [List.count_cons]
    rw [h1, h2]
    push_cast
    cases t <;> simp at ih ⊢ <;> omega
  | @exit ks t h ih =>
    have h1 : (EventKind.exit :: ks).count EventKind.enter =
        ks.count EventKind.enter := by simp [List.count_cons]
    have h2 : (EventKind.exit :: ks).count EventKind.exit =
        ks.count EventKind.exit + 1 := by simp [List.count_cons]
    rw [h1, h2]
    push_cast
    cases t <;> simp at ih ⊢ <;> omega

theorem runDetector_cons_fst (regions : List ClientRegion) (lk : List String)
    (s : ℝ × ℝ) (rest : List (ℝ × ℝ)) :
    (runDetector regions lk (s :: rest)).1 =
      (checkGeofenceEvents regions lk s.1 s.2).1 ++
        (runDetector regions (checkGeofenceEvents regions lk s.1 s.2).2 rest).1 := rfl

theorem runDetector_cons_snd (regions : List ClientRegion) (lk : List String)
    (s : ℝ × ℝ) (rest : List (ℝ × ℝ)) :
    (runDetector regions lk (s :: rest)).2 =
      (runDetector regions (checkGeofenceEvents regions lk s.1 s.2).2 rest).2 := rfl

theorem check_snd_nodup (regions : List ClientRegion) (lk : List String)
    (lat lon : ℝ) : (checkGeofenceEvents regions lk lat lon).2.Nodup := by
  have h : (checkGeofenceEvents regions lk lat lon).2 =
      (regions.foldl (processRegion lk lat lon) ([], [])).2 := rfl
  rw [h]
  exact foldl_processRegion_nodup lk lat lon regions ([], []) (by simp)

/-- Over a whole run with the registry snapshot fixed, a zone id that no
region of the snapshot carries never receives any event. -/
theorem runDetector_absent (regions : List ClientRegion) (rid : String)
    (habs : ∀ r ∈ regions, r.regionId ≠ rid) :
    ∀ (samples : List (ℝ × ℝ)) (lk : List String),
    kindsOf rid (runDetector regions lk samples).1 = [] := by
  intro samples
  induction samples with
  | nil => intro lk; rfl
  | cons s rest ih =>
    intro lk
    rw [runDetector_cons_fst, kindsOf_append,
      (check_absent regions lk s.1 s.2 rid habs).1, ih]
    rfl

/-- Over a whole run with the registry snapshot fixed, the events of a zone
that is present in the snapshot form a strictly alternating transition
sequence from the initial to the final containment state. -/
theorem runDetector_alt (regions : List ClientRegion) (rid : String)
    (r : ClientRegion) (hnd : (regions.map (fun r => r.regionId)).Nodup)
    (hr : r ∈ regions) (hid : r.regionId = rid) :
    ∀ (samples : List (ℝ × ℝ)) (lk : List String), lk.Nodup →
    AltFrom (decide (rid ∈ lk)) (kindsOf rid (runDetector regions lk samples).1)
      (decide (rid ∈ (runDetector regions lk samples).2)) := by
  intro samples
  induction samples with
  | nil =>
    intro lk _
    exact AltFrom.nil _
  | cons s rest ih =>
    intro lk hlk
    obtain ⟨hm, hk⟩ := check_present regions lk s.1 s.2 rid r hnd hlk hr hid
    have halt1 : AltFrom (decide (rid ∈ lk))
        (kindsOf rid (checkGeofenceEvents regions lk s.1 s.2).1)
        (decide (rid ∈ (checkGeofenceEvents regions lk s.1 s.2).2)) := by
      rw [hk]
      by_cases hmem : rid ∈ lk <;> by_cases hin : insideR s.1 s.2 r
      · have h1 : decide (rid ∈ lk) = true := by simp [hmem]
        have h2 : decide (rid ∈ (checkGeofenceEvents regions lk s.1 s.2).2) = true := by
          simp [hm, hin]
        rw [if_pos hmem, if_pos hin, h1, h2]
        exact AltFrom.nil true
      · simp only [if_pos hmem, if_neg hin]
        have h1 : decide (rid ∈ lk) = true := by simp [hmem]
        have h2 : decide (rid ∈ (checkGeofenceEvents regions lk s.1 s.2).2) = false := by
          simp [hm, hin]
        rw [h1, h2]
        exact AltFrom.exit (AltFrom.nil false)
      · simp only [if_neg hmem, if_pos hin]
        have h1 : decide (rid ∈ lk) = false := by simp [hmem]
        have h2 : decide (rid ∈ (checkGeofenceEvents regions lk s.1 s.2).2) = true := by
          simp [hm, hin]
        rw [h1, h2]
        exact AltFrom.enter (AltFrom.nil true)
      · simp only [if_neg hmem, if_neg hin]
        have h1 : decide (rid ∈ lk) = false := by simp [hmem]
        have h2 : decide (rid ∈ (checkGeofenceEvents regions lk s.1 s.2).2) = false := by
          simp [hm, hin]
        rw [h1, h2]
        exact AltFrom.nil false
    have halt2 := ih (checkGeofenceEvents regions lk s.1 s.2).2
      (check_snd_nodup regions lk s.1 s.2)
    rw [runDetector_cons_fst, runDetector_cons_snd, kindsOf_append]
    exact AltFrom.append halt1 halt2

/-! ## Server-side handler lemmas -/

/-- `validRequest req` abbreviates the express-validator coordinate-bounds
stage of the route. -/
def validRequest (req : LogRequest) : Prop :=
  -90 ≤ req.latitude ∧ req.latitude ≤ 90 ∧
    -180 ≤ req.longitude ∧ req.longitude ≤ 180

theorem handleLog_skips_policy (regions : List GeofenceRegion)
    (store : List AttendanceLog) (req : LogRequest)
    (hb : validRequest req) (hnone : req.regionId = none) :
    handleLog regions store req =
      (LogResponse.created (attendanceLogOf req), store ++ [attendanceLogOf req]) := by
  unfold handleLog
  rw [if_pos (show -90 ≤ req.latitude ∧ req.latitude ≤ 90 ∧
      -180 ≤ req.longitude ∧ req.longitude ≤ 180 from hb), if_neg]
  rintro ⟨-, htr⟩
  rw [hnone] at htr
  simp [truthy] at htr

open Classical in
theorem handleLog_geofence (regions : List GeofenceRegion)
    (store : List AttendanceLog) (req : LogRequest) (rid : String)
    (region : GeofenceRegion)
    (hb : validRequest req)
    (htype : req.type = EventType.geofence_enter ∨ req.type = EventType.geofence_exit)
    (hrid : req.regionId = some rid) (hne : rid ≠ "")
    (hfind : findRegion regions rid = some region) :
    handleLog regions store req =
      (if ¬ region.isUserAllowed req.userId then
        (LogResponse.error 403 "User not allowed in this geofence region", store)
      else if req.type = EventType.geofence_enter ∧
          ¬ region.isPointInside req.latitude req.longitude then
        (LogResponse.error 400 "Location is not within the geofence region", store)
      else
        (LogResponse.created (attendanceLogOf req),
          store ++ [attendanceLogOf req])) := by
  unfold handleLog
  rw [if_pos (show -90 ≤ req.latitude ∧ req.latitude ≤ 90 ∧
      -180 ≤ req.longitude ∧ req.longitude ≤ 180 from hb),
    if_pos ⟨htype, by rw [hrid]; simp [truthy, hne]⟩]
  rw [show req.regionId.getD "" = rid from by rw [hrid]; rfl, hfind]

theorem isUserAllowed_empty (r : GeofenceRegion) (u : String)
    (h : r.allowedUsers = []) : r.isUserAllowed u = true := by
  simp [GeofenceRegion.isUserAllowed, h]

theorem isUserAllowed_false (r : GeofenceRegion) (u : String)
    (hne : r.allowedUsers ≠ []) (hnm : u ∉ r.allowedUsers) :
    r.isUserAllowed u = false := by
  simp [GeofenceRegion.isUserAllowed, hne, hnm, List.isEmpty_iff]

open Classical in
theorem handleLog_cases (regions : List GeofenceRegion)
    (store : List AttendanceLog) (req : LogRequest) :
    handleLog regions store req =
      (LogResponse.created (attendanceLogOf req), store ++ [attendanceLogOf req]) ∨
    ∃ s m, handleLog regions store req = (LogResponse.error s m, store) := by
  unfold handleLog
  by_cases hb : -90 ≤ req.latitude ∧ req.latitude ≤ 90 ∧
      -180 ≤ req.longitude ∧ req.longitude ≤ 180
  · rw [if_pos hb]
    by_cases hg : (req.type = EventType.geofence_enter ∨
        req.type = EventType.geofence_exit) ∧ truthy req.regionId = true
    · rw [if_pos hg]
      rcases hfind : findRegion regions (req.regionId.getD "") with _ | region
      · exact Or.inr ⟨400, "Invalid or inactive geofence region", by simp [hfind]⟩
      · simp only [hfind]
        by_cases hu : ¬ region.isUserAllowed req.userId = true
        · exact Or.inr ⟨403, "User not allowed in this geofence region",
            by rw [if_pos hu]⟩
        · rw [if_neg hu]
          by_cases hin : req.type = EventType.geofence_enter ∧
              ¬ region.isPointInside req.latitude req.longitude
          · exact Or.inr ⟨400, "Location is not within the geofence region",
              by rw [if_pos hin]⟩
          · exact Or.inl (by rw [if_neg hin])
    · exact Or.inl (by rw [if_neg hg])
  · exact Or.inr ⟨400, "Validation error", by rw [if_neg hb]⟩

open Classical in
theorem handleLog_fst_eq (regions : List GeofenceRegion) (req : LogRequest)
    (store store2 : List AttendanceLog) :
    (handleLog regions store req).1 = (handleLog regions store2 req).1 := by
  unfold handleLog
  by_cases hb : -90 ≤ req.latitude ∧ req.latitude ≤ 90 ∧
      -180 ≤ req.longitude ∧ req.longitude ≤ 180
  · rw [if_pos hb, if_pos hb]
    by_cases hg : (req.type = EventType.geofence_enter ∨
        req.type = EventType.geofence_exit) ∧ truthy req.regionId = true
    · rw [if_pos hg, if_pos hg]
      rcases hfind : findRegion regions (req.regionId.getD "") with _ | region
      · simp [hfind]
      · simp only [hfind]
        by_cases hu : ¬ region.isUserAllowed req.userId = true
        · rw [if_pos hu, if_pos hu]
        · rw [if_neg hu, if_neg hu]
          by_cases hin : req.type = EventType.geofence_enter ∧
              ¬ region.isPointInside req.latitude req.longitude
          · rw [if_pos hin, if_pos hin]
          · rw [if_neg hin, if_neg hin]
    · rw [if_neg hg, if_neg hg]
  · rw [if_neg hb, if_neg hb]

/-- On the embedded route there is no idempotency key: whenever a request is
accepted (`201`), submitting it again against any collection state appends a
fresh record. -/
theorem handleLog_no_dedup (regions : List GeofenceRegion) (req : LogRequest)
    (store : List AttendanceLog) (log : AttendanceLog)
    (h : (handleLog regions store req).1 = LogResponse.created log) :
    log = attendanceLogOf req ∧
    ∀ store2 : List AttendanceLog,
      handleLog regions store2 req =
        (LogResponse.created (attendanceLogOf req),
          store2 ++ [attendanceLogOf req]) := by
  have hself : handleLog regions store req =
      (LogResponse.created (attendanceLogOf req), store ++ [attendanceLogOf req]) := by
    rcases handleLog_cases regions store req with hc | ⟨s, m, hc⟩
    · exact hc
    · rw [hc] at h; cases h
  constructor
  · rw [hself] at h
    injection h with h'
    exact h'.symm
  · intro store2
    rcases handleLog_cases regions store2 req with hc | ⟨s, m, hc⟩
    · exact hc
    · have := handleLog_fst_eq regions req store store2
      rw [hself, hc] at this
      cases this

/-! ## Client retry-queue lemmas -/

theorem foldl_apiCall_attempts (ok : AttendanceData → Bool) :
    ∀ (rs : List StoredRequest) (st : ClientState),
    (rs.foldl (fun acc r => apiCall ok acc r.data) st).attempts =
      st.attempts ++ rs.map (fun r => r.data) := by
  intro rs
  induction rs with
  | nil => intro st; simp
  | cons r rest ih =>
    intro st
    rw [List.foldl_cons, ih]
    simp [apiCall]

theorem foldl_apiCall_server (ok : AttendanceData → Bool) :
    ∀ (rs : List StoredRequest) (st : ClientState),
    (rs.foldl (fun acc r => apiCall ok acc r.data) st).serverLog =
      st.serverLog ++ (rs.filter (fun r => ok r.data)).map (fun r => r.data) := by
  intro rs
  induction rs with
  | nil => intro st; simp
  | cons r rest ih =>
    intro st
    rw [List.foldl_cons, ih]
    by_cases h : ok r.data <;> simp [apiCall, h]

theorem retry_attempts (ok : AttendanceData → Bool) (st : ClientState) :
    (retryFailedRequests ok st).attempts =
      st.attempts ++ st.settings.failedAttendanceRequests.map (fun r => r.data) := by
  unfold retryFailedRequests
  by_cases h : st.settings.failedAttendanceRequests.isEmpty
  · rw [if_pos h]
    rw [List.isEmpty_iff] at h
    simp [h]
  · rw [if_neg h]
    exact foldl_apiCall_attempts ok _ st

theorem retry_server (ok : AttendanceData → Bool) (st : ClientState) :
    (retryFailedRequests ok st).serverLog =
      st.serverLog ++
        (st.settings.failedAttendanceRequests.filter
          (fun r => ok r.data)).map (fun r => r.data) := by
  unfold retryFailedRequests
  by_cases h : st.settings.failedAttendanceRequests.isEmpty
  · rw [if_pos h]
    rw [List.isEmpty_iff] at h
    simp [h]
  · rw [if_neg h]
    exact foldl_apiCall_server ok _ st

theorem retry_queue (ok : AttendanceData → Bool) (st : ClientState) :
    (retryFailedRequests ok st).settings.failedAttendanceRequests =
      st.settings.failedAttendanceRequests.filter (fun r => !(ok r.data)) := by
  unfold retryFailedRequests
  by_cases h : st.settings.failedAttendanceRequests.isEmpty
  · rw [if_pos h]
    rw [List.isEmpty_iff] at h
    simp [h]
  · rw [if_neg h]

/-! ## Concrete instances used by witnesses and counterexamples -/

/-- A client-side zone at `(0,0)` with a 100 m radius. -/
def zone0 : ClientRegion := { regionId := "zoneA", centerLat := 0, centerLon := 0, radius := 100 }

/-- A server-side active region at `(0,0)`, radius 100 m, open to all users. -/
def region0 : GeofenceRegion :=
  { regionId := "Z1", centerLat := 0, centerLon := 0, radius := 100,
    isActive := true, allowedUsers := [] }

/-- A server-side active region whose member list contains only `alice`. -/
def region1 : GeofenceRegion :=
  { regionId := "Z2", centerLat := 0, centerLon := 0, radius := 100,
    isActive := true, allowedUsers := ["alice"] }

def reqLogin : LogRequest :=
  { type := EventType.login, latitude := 0, longitude := 0,
    regionId := none, userId := "u1" }

def reqEnterFar : LogRequest :=
  { type := EventType.geofence_enter, latitude := 0.01, longitude := 0.01,
    regionId := some "Z1", userId := "u1" }

def reqExitFar : LogRequest :=
  { type := EventType.geofence_exit, latitude := 0.01, longitude := 0.01,
    regionId := some "Z1", userId := "u1" }

def reqEnterDenied : LogRequest :=
  { type := EventType.geofence_enter, latitude := 0, longitude := 0,
    regionId := some "Z2", userId := "bob" }

def reqGeoNone : LogRequest :=
  { type := EventType.geofence_exit, latitude := 0, longitude := 0,
    regionId := none, userId := "u1" }

/-- The server-side haversine at the concrete far point: more than 100 m. -/
theorem region0_far : ¬ region0.isPointInside 0.01 0.01 := by
  have h1 : region0.getDistanceFromCenter 0.01 0.01 = calculateDistance 0.01 0.01 0 0 :=
    (getDistanceFromCenter_eq_calc region0 0.01 0.01).trans
      (calculateDistance_comm 0 0 0.01 0.01)
  intro hc
  have hc' : region0.getDistanceFromCenter 0.01 0.01 ≤ region0.radius := hc
  rw [h1] at hc'
  have hr : (region0.radius : ℝ) = 100 := rfl
  rw [hr] at hc'
  linarith [hundred_lt_dist]

/-- C7: `calculateDistance` is the haversine great-circle distance with Earth
radius `6371e3` (by definition of `calculateDistance`);
`distanceMeters((0,0),(0,0)) = 0`; for a zone centered at `(0,0)` with radius
100 m, a sample at `(0,0)` is classified inside and a sample at
`(0.01, 0.01)` (about 1.5 km away) is classified outside, where containment
is `distance ≤ radius` (`insideR`). -/
theorem claim_C7 :
    calculateDistance 0 0 0 0 = 0 ∧
    insideR 0 0 zone0 ∧
    ¬ insideR 0.01 0.01 zone0 := by
  have hclat : zone0.centerLat = 0 := rfl
  have hclon : zone0.centerLon = 0 := rfl
  have hr : (zone0.radius : ℝ) = 100 := rfl
  refine ⟨calculateDistance_same, ?_, ?_⟩
  · show calculateDistance 0 0 zone0.centerLat zone0.centerLon ≤ zone0.radius
    rw [hclat, hclon, hr, calculateDistance_same]
    norm_num
  · intro hc
    have hc' : calculateDistance 0.01 0.01 zone0.centerLat zone0.centerLon ≤
        zone0.radius := hc
    rw [hclat, hclon, hr] at hc'
    linarith [hundred_lt_dist]

/-- C10: the haversine distance is symmetric in its two coordinate pairs —
`calculateDistance a b c d = calculateDistance c d a b` for all real
coordinates (in particular for all valid latitudes/longitudes). -/
theorem claim_C10 (lat1 lon1 lat2 lon2 : ℝ) :
    calculateDistance lat1 lon1 lat2 lon2 = calculateDistance lat2 lon2 lat1 lon1 :=
  calculateDistance_comm lat1 lon1 lat2 lon2

/-- C9: for a geofence-typed request whose `regionId` is absent/`null` (and
which passes the coordinate validation), the handler performs none of the
zone-policy checks — the result does not depend on the region collection at
all — and persists the event with `regionId = null`, responding 201. -/
theorem claim_C9 (regions : List GeofenceRegion) (store : List AttendanceLog)
    (req : LogRequest) (hb : validRequest req)
    (htype : req.type = EventType.geofence_enter ∨
      req.type = EventType.geofence_exit)
    (hnone : req.regionId = none) :
    handleLog regions store req =
      (LogResponse.created (attendanceLogOf req), store ++ [attendanceLogOf req]) ∧
    (attendanceLogOf req).regionId = none := by
  refine ⟨handleLog_skips_policy regions store req hb hnone, ?_⟩
  simp [attendanceLogOf, hnone, truthy]

/-- Witness for C9 at a concrete geofence-exit request with no `regionId`. -/
theorem claim_C9_witness :
    handleLog [region1] [] reqGeoNone =
      (LogResponse.created (attendanceLogOf reqGeoNone),
        [attendanceLogOf reqGeoNone]) ∧
    (attendanceLogOf reqGeoNone).regionId = none := by
  have h := claim_C9 [region1] [] reqGeoNone
    (by constructor <;> norm_num [reqGeoNone])
    (Or.inr rfl) rfl
  simpa using h

/-- C8: a geofence event for a zone whose `allowedUsers` list is non-empty
and does not contain the submitting user is rejected 403 whatever the
coordinates are (the theorem quantifies over the coordinates through `req`),
and a zone with an empty `allowedUsers` list allows every user. -/
theorem claim_C8 :
    (∀ (regions : List GeofenceRegion) (store : List AttendanceLog)
      (req : LogRequest) (rid : String) (region : GeofenceRegion),
      validRequest req →
      (req.type = EventType.geofence_enter ∨
        req.type = EventType.geofence_exit) →
      req.regionId = some rid → rid ≠ "" →
      findRegion regions rid = some region →
      region.allowedUsers ≠ [] → req.userId ∉ region.allowedUsers →
      handleLog regions store req =
        (LogResponse.error 403 "User not allowed in this geofence region", store)) ∧
    (∀ (region : GeofenceRegion) (u : String),
      region.allowedUsers = [] → region.isUserAllowed u = true) := by
  constructor
  · intro regions store req rid region hb htype hrid hne hfind hne' hnm
    rw [handleLog_geofence regions store req rid region hb htype hrid hne hfind]
    rw [if_pos (by rw [isUserAllowed_false region req.userId hne' hnm]; simp)]
  · exact isUserAllowed_empty

/-- Witness for C8: `bob` submits a geofence enter for `region1`
(members: `alice` only) from the exact zone center; rejected 403. -/
theorem claim_C8_witness :
    handleLog [region1] [] reqEnterDenied =
      (LogResponse.error 403 "User not allowed in this geofence region", []) ∧
    GeofenceRegion.isUserAllowed region0 "anyone" = true := by
  constructor
  · exact claim_C8.1 [region1] [] reqEnterDenied "Z2" region1
      (by constructor <;> norm_num [reqEnterDenied])
      (Or.inl rfl) rfl (by decide) rfl (by simp [region1]) (by simp [reqEnterDenied, region1])
  · exact claim_C8.2 region0 "anyone" rfl

/-- C5: (a) a `geofence_enter` whose claimed coordinates are not within the
zone's radius (re-computed server-side) is rejected 400 and not persisted;
(b) a `geofence_exit` for an existing active zone with an allowed user is
accepted and persisted without any containment re-check (the coordinates are
arbitrary); (c) the server re-computes containment with the same haversine
geo-math as the client (`getDistanceFromCenter` equals the client's
`calculateDistance` from the center). -/
theorem claim_C5 :
    (∀ (regions : List GeofenceRegion) (store : List AttendanceLog)
      (req : LogRequest) (rid : String) (region : GeofenceRegion),
      validRequest req → req.type = EventType.geofence_enter →
      req.regionId = some rid → rid ≠ "" →
      findRegion regions rid = some region →
      region.isUserAllowed req.userId = true →
      ¬ region.isPointInside req.latitude req.longitude →
      handleLog regions store req =
        (LogResponse.error 400 "Location is not within the geofence region", store)) ∧
    (∀ (regions : List GeofenceRegion) (store : List AttendanceLog)
      (req : LogRequest) (rid : String) (region : GeofenceRegion),
      validRequest req → req.type = EventType.geofence_exit →
      req.regionId = some rid → rid ≠ "" →
      findRegion regions rid = some region →
      region.isUserAllowed req.userId = true →
      handleLog regions store req =
        (LogResponse.created (attendanceLogOf req),
          store ++ [attendanceLogOf req])) ∧
    (∀ (region : GeofenceRegion) (lat lon : ℝ),
      region.getDistanceFromCenter lat lon =
        calculateDistance region.centerLat region.centerLon lat lon) := by
  refine ⟨?_, ?_, fun region lat lon => getDistanceFromCenter_eq_calc region lat lon⟩
  · intro regions store req rid region hb htype hrid hne hfind hallow hout
    rw [handleLog_geofence regions store req rid region hb (Or.inl htype) hrid hne hfind]
    rw [if_neg (by rw [hallow]; simp), if_pos ⟨htype, hout⟩]
  · intro regions store req rid region hb htype hrid hne hfind hallow
    rw [handleLog_geofence regions store req rid region hb (Or.inr htype) hrid hne hfind]
    rw [if_neg (by rw [hallow]; simp), if_neg]
    rintro ⟨h, -⟩
    rw [htype] at h
    cases h

/-- Witness for C5: an enter claimed from `(0.01, 0.01)` against `region0`
(center `(0,0)`, radius 100 m) is rejected 400; an exit with the same far
coordinates is accepted and persisted. -/
theorem claim_C5_witness :
    handleLog [region0] [] reqEnterFar =
      (LogResponse.error 400 "Location is not within the geofence region", []) ∧
    handleLog [region0] [] reqExitFar =
      (LogResponse.created (attendanceLogOf reqExitFar),
        [attendanceLogOf reqExitFar]) ∧
    region0.getDistanceFromCenter 0.01 0.01 =
      calculateDistance region0.centerLat region0.centerLon 0.01 0.01 := by
  refine ⟨?_, ?_, claim_C5.2.2 region0 0.01 0.01⟩
  · exact claim_C5.1 [region0] [] reqEnterFar "Z1" region0
      (by constructor <;> norm_num [reqEnterFar])
      rfl rfl (by decide) rfl rfl region0_far
  · have h := claim_C5.2.1 [region0] [] reqExitFar "Z1" region0
      (by constructor <;> norm_num [reqExitFar])
      rfl rfl (by decide) rfl rfl
    simpa using h

/-- Evaluation of the handler on the concrete login request: accepted,
appending one record, whatever the stored collection is. -/
theorem handleLog_login_eval (store : List AttendanceLog) :
    handleLog [] store reqLogin =
      (LogResponse.created (attendanceLogOf reqLogin),
        store ++ [attendanceLogOf reqLogin]) := by
  unfold handleLog
  rw [if_pos (by constructor <;> norm_num [reqLogin])]
  rw [if_neg]
  rintro ⟨htype, -⟩
  rcases htype with h | h <;> exact EventType.noConfusion (show EventType.login = _ from h)

/-- C2 counterexample: the embedded route has no `localId` idempotency key at
all; re-submitting the very request the server has just acknowledged
(`201 Created`) produces a second identical persisted record. -/
theorem claim_C2_counterexample :
    (handleLog [] (handleLog [] [] reqLogin).2 reqLogin).2 =
      [attendanceLogOf reqLogin, attendanceLogOf reqLogin] := by
  rw [handleLog_login_eval, handleLog_login_eval]
  rfl

/-- C2 as amended: the server performs no deduplication whatsoever — whenever
a request was accepted (acknowledged with a created record), submitting the
same request again against any collection state appends a second record. -/
theorem claim_C2 (regions : List GeofenceRegion) (req : LogRequest)
    (store : List AttendanceLog) (log : AttendanceLog)
    (h : (handleLog regions store req).1 = LogResponse.created log) :
    ∀ store2 : List AttendanceLog,
      handleLog regions store2 req = (LogResponse.created log, store2 ++ [log]) := by
  obtain ⟨rfl, hall⟩ := handleLog_no_dedup regions req store log h
  exact hall

/-- Witness for C2 at the concrete login request. -/
theorem claim_C2_witness :
    handleLog [] [attendanceLogOf reqLogin] reqLogin =
      (LogResponse.created (attendanceLogOf reqLogin),
        [attendanceLogOf reqLogin, attendanceLogOf reqLogin]) := by
  have h := claim_C2 [] reqLogin [] (attendanceLogOf reqLogin)
    (by rw [handleLog_login_eval]) [attendanceLogOf reqLogin]
  simpa using h

def eEnterZ : AttendanceData :=
  { type := EventType.geofence_enter, latitude := 0, longitude := 0,
    regionId := some "Z" }

def eExitZ : AttendanceData :=
  { type := EventType.geofence_exit, latitude := 0, longitude := 0,
    regionId := some "Z" }

/-- Fresh client state: empty durable settings, no traffic yet. -/
def st0 : ClientState :=
  { settings := { failedAttendanceRequests := [] }, attempts := [], serverLog := [] }

/-- A collaborator that rejects every submission (e.g. answers a terminal
`400 Invalid or inactive geofence region` each time). -/
def rejectAll : AttendanceData → Bool := fun _ => false

/-- A collaborator that accepts every submission. -/
def acceptAll : AttendanceData → Bool := fun _ => true

/-- C3 counterexample: an event whose delivery keeps failing terminally is
re-submitted by the very next `retryFailedRequests` call (attempt trace grows
to two attempts of the same payload) and stays in the single
`failedAttendanceRequests` queue — there is no dead-letter set and the entry
is retried automatically despite the terminal error. -/
theorem claim_C3_counterexample :
    (retryFailedRequests rejectAll (logAttendance rejectAll st0 eEnterZ 1)).attempts =
      [eEnterZ, eEnterZ] ∧
    (retryFailedRequests rejectAll
        (logAttendance rejectAll st0 eEnterZ 1)).settings.failedAttendanceRequests =
      [{ data := eEnterZ, failedAt := 1 }] := by
  constructor <;> rfl

/-- C3 as amended: every stored failed request — whatever error caused it to
be stored — is re-attempted on each `retryFailedRequests` invocation, and a
request that fails again stays in the same queue (there is no dead-letter
set; the original error is not preserved, only a `failedAt` timestamp). -/
theorem claim_C3 (ok : AttendanceData → Bool) (st : ClientState)
    (r : StoredRequest) (hmem : r ∈ st.settings.failedAttendanceRequests) :
    r.data ∈ (retryFailedRequests ok st).attempts ∧
    (ok r.data = false →
      r ∈ (retryFailedRequests ok st).settings.failedAttendanceRequests) := by
  constructor
  · rw [retry_attempts]
    exact List.mem_append_right _ (List.mem_map_of_mem _ hmem)
  · intro hfail
    rw [retry_queue]
    exact List.mem_filter.2 ⟨hmem, by simp [hfail]⟩

/-- Witness for C3 at a concrete queued entry that keeps failing. -/
theorem claim_C3_witness :
    eEnterZ ∈ (retryFailedRequests rejectAll
      (logAttendance rejectAll st0 eEnterZ 1)).attempts ∧
    ({ data := eEnterZ, failedAt := 1 } : StoredRequest) ∈
      (retryFailedRequests rejectAll
        (logAttendance rejectAll st0 eEnterZ 1)).settings.failedAttendanceRequests := by
  have h := claim_C3 rejectAll (logAttendance rejectAll st0 eEnterZ 1)
    { data := eEnterZ, failedAt := 1 }
    (by rw [show (logAttendance rejectAll st0 eEnterZ 1).settings.failedAttendanceRequests =
      [{ data := eEnterZ, failedAt := 1 }] from rfl]; exact List.mem_singleton_self _)
  exact ⟨h.1, h.2 rfl⟩

/-- C4 counterexample: enter(Z) is created first but its delivery fails
transiently; exit(Z), created later, is delivered immediately while enter(Z)
is still queued (neither acknowledged nor dead-lettered); the retry then
delivers enter(Z) after it. The server receives `[exit, enter]` — the reverse
of the per-zone creation order. -/
theorem claim_C4_counterexample :
    (logAttendance acceptAll (logAttendance rejectAll st0 eEnterZ 1) eExitZ 2).serverLog =
      [eExitZ] ∧
    (logAttendance acceptAll (logAttendance rejectAll st0 eEnterZ 1) eExitZ 2).settings.failedAttendanceRequests =
      [{ data := eEnterZ, failedAt := 1 }] ∧
    (retryFailedRequests acceptAll
      (logAttendance acceptAll (logAttendance rejectAll st0 eEnterZ 1) eExitZ 2)).serverLog =
      [eExitZ, eEnterZ] := by
  refine ⟨rfl, rfl, rfl⟩

/-- C4 as amended: no per-zone FIFO is enforced. Each event is submitted
immediately when created; if the submission of an earlier event fails, the
event is parked in the retry queue while any later event (for the same zone
or not) that succeeds reaches the server first, and the parked event is
delivered only by a later `retryFailedRequests` call. -/
theorem claim_C4 (st : ClientState) (e1 e2 : AttendanceData)
    (ok1 ok2 ok3 : AttendanceData → Bool) (t1 t2 : Nat)
    (hq : st.settings.failedAttendanceRequests = [])
    (h1 : ok1 e1 = false) (h2 : ok2 e2 = true) (h3 : ok3 e1 = true) :
    (logAttendance ok2 (logAttendance ok1 st e1 t1) e2 t2).serverLog =
      st.serverLog ++ [e2] ∧
    (logAttendance ok2 (logAttendance ok1 st e1 t1) e2 t2).settings.failedAttendanceRequests =
      [{ data := e1, failedAt := t1 }] ∧
    (retryFailedRequests ok3
      (logAttendance ok2 (logAttendance ok1 st e1 t1) e2 t2)).serverLog =
      st.serverLog ++ [e2, e1] := by
  have hl1 : logAttendance ok1 st e1 t1 =
      { settings := storeFailedRequest st.settings e1 t1,
        attempts := st.attempts ++ [e1], serverLog := st.serverLog } := by
    unfold logAttendance apiCall
    rw [h1]
    rfl
  have hl2 : logAttendance ok2 (logAttendance ok1 st e1 t1) e2 t2 =
      { settings := storeFailedRequest st.settings e1 t1,
        attempts := st.attempts ++ [e1] ++ [e2],
        serverLog := st.serverLog ++ [e2] } := by
    rw [hl1]
    unfold logAttendance apiCall
    rw [h2]
    rfl
  have hqs : storeFailedRequest st.settings e1 t1 =
      { failedAttendanceRequests := [{ data := e1, failedAt := t1 }] } := by
    unfold storeFailedRequest
    rw [hq]
    rfl
  refine ⟨by rw [hl2], by rw [hl2]; rw [hqs], ?_⟩
  rw [retry_server, hl2, hqs]
  simp [h3]

/-- Witness for C4 at the concrete enter/exit pair. -/
theorem claim_C4_witness :
    (logAttendance acceptAll (logAttendance rejectAll st0 eEnterZ 5) eExitZ 6).serverLog =
      [eExitZ] ∧
    (logAttendance acceptAll (logAttendance rejectAll st0 eEnterZ 5) eExitZ 6).settings.failedAttendanceRequests =
      [{ data := eEnterZ, failedAt := 5 }] ∧
    (retryFailedRequests acceptAll
      (logAttendance acceptAll (logAttendance rejectAll st0 eEnterZ 5) eExitZ 6)).serverLog =
      [eExitZ, eEnterZ] := by
  have h := claim_C4 st0 eEnterZ eExitZ rejectAll acceptAll acceptAll 5 6 rfl rfl rfl rfl
  simpa using h

/-- C1 counterexample: detector state INSIDE for zone `A` (`lastKnownRegions
= ["A"]`), registry snapshot no longer contains `A`; the next
`checkGeofenceEvents` call emits *no* event at all — in particular not the
claimed single exit event — and silently clears the state. -/
theorem claim_C1_counterexample :
    checkGeofenceEvents [] ["A"] 0 0 = ([], []) := rfl

/-- C1 as amended: a zone whose stored containment state is INSIDE but which
is absent from the current registry snapshot is silently dropped from the
detector state on the next cycle with *no* exit event (the source's
`geofenceRegions.find` guard skips emission); repeated calls with the zone
still absent likewise emit nothing for it. -/
theorem claim_C1 (regions : List ClientRegion) (lastKnown : List String)
    (lat lon : ℝ) (rid : String)
    (habs : ∀ r ∈ regions, r.regionId ≠ rid) (hmem : rid ∈ lastKnown) :
    kindsOf rid (checkGeofenceEvents regions lastKnown lat lon).1 = [] ∧
    rid ∉ (checkGeofenceEvents regions lastKnown lat lon).2 := by
  have h := check_absent regions lastKnown lat lon rid habs
  exact h

/-- Witness for C1 at the concrete deleted zone `A`. -/
theorem claim_C1_witness :
    kindsOf "A" (checkGeofenceEvents [zone0] ["A"] 0 0).1 = [] ∧
    "A" ∉ (checkGeofenceEvents [zone0] ["A"] 0 0).2 :=
  claim_C1 [zone0] ["A"] 0 0 "A" (by intro r hr; rw [List.mem_singleton] at hr; rw [hr]; decide)
    (List.mem_singleton_self "A")

/-- C6: with the registry snapshot held fixed across a run (region ids
pairwise distinct, initial state all-OUTSIDE as in the source constructor),
the events emitted for any single zone strictly alternate — never two
consecutive events of the same kind — and the enter and exit counts differ
by at most one. -/
theorem claim_C6 (regions : List ClientRegion)
    (hnd : (regions.map (fun r => r.regionId)).Nodup)
    (samples : List (ℝ × ℝ)) (rid : String) :
    List.Chain' (fun a b => a ≠ b) (kindsOf rid (runDetector regions [] samples).1) ∧
    (kindsOf rid (runDetector regions [] samples).1).count EventKind.enter ≤
      (kindsOf rid (runDetector regions [] samples).1).count EventKind.exit + 1 ∧
    (kindsOf rid (runDetector regions [] samples).1).count EventKind.exit ≤
      (kindsOf rid (runDetector regions [] samples).1).count EventKind.enter + 1 := by
  by_cases hex : ∃ r ∈ regions, r.regionId = rid
  · obtain ⟨r, hr, hid⟩ := hex
    have halt := runDetector_alt regions rid r hnd hr hid samples [] List.nodup_nil
    rw [show decide (rid ∈ ([] : List String)) = false from by simp] at halt
    have hcount := halt.count
    have hc2 : ((kindsOf rid (runDetector regions [] samples).1).count EventKind.enter : ℤ) -
        ((kindsOf rid (runDetector regions [] samples).1).count EventKind.exit : ℤ) = 0 ∨
        ((kindsOf rid (runDetector regions [] samples).1).count EventKind.enter : ℤ) -
        ((kindsOf rid (runDetector regions [] samples).1).count EventKind.exit : ℤ) = 1 := by
      cases ht : decide (rid ∈ (runDetector regions [] samples).2) with
      | false => rw [ht] at hcount; simp at hcount; exact Or.inl (by exact_mod_cast hcount)
      | true => rw [ht] at hcount; simp at hcount; exact Or.inr (by exact_mod_cast hcount)
    refine ⟨halt.chain, ?_, ?_⟩ <;> rcases hc2 with h | h <;> omega
  · push_neg at hex
    rw [runDetector_absent regions rid hex samples []]
    refine ⟨List.chain'_nil, by simp, by simp⟩

/-- Witness for C6 on a concrete one-zone registry and a two-sample run. -/
theorem claim_C6_witness :
    List.Chain' (fun a b => a ≠ b)
      (kindsOf "zoneA" (runDetector [zone0] [] [(0, 0), (1, 1)]).1) ∧
    (kindsOf "zoneA" (runDetector [zone0] [] [(0, 0), (1, 1)]).1).count EventKind.enter ≤
      (kindsOf "zoneA" (runDetector [zone0] [] [(0, 0), (1, 1)]).1).count EventKind.exit + 1 ∧
    (kindsOf "zoneA" (runDetector [zone0] [] [(0, 0), (1, 1)]).1).count EventKind.exit ≤
      (kindsOf "zoneA" (runDetector [zone0] [] [(0, 0), (1, 1)]).1).count EventKind.enter + 1 :=
  claim_C6 [zone0] (by simp) [(0, 0), (1, 1)] "zoneA"
